import Mathlib

/-!
Verification development for the `MessageAgent` conversational dispatcher
(src/messsage_agent.py).  The Python code is shallowly embedded: strings are
Lean `String`s manipulated through their character lists, the mutable
`self._memory` dict becomes an explicit `Memory` record threaded through the
handlers, Python exceptions become `Except String`, and the external
`datetime` library is modelled by a clock counting whole minutes since an
arbitrary epoch (`datetime.isoformat` becomes decimal rendering of that
counter, `datetime.fromisoformat` its parser).  Python `float` confidences
are modelled as rationals.
-/

namespace MessageAgent

/-! ## Python-style character and string primitives -/

/-- Whitespace class used by Python's `str.strip`, `str.split()` and the
regex class `\s` (restricted to ASCII, which covers every message the
program manipulates). -/
def isPySpace (c : Char) : Bool :=
  c = ' ' || c = '\t' || c = '\n' || c = '\r' || c = '\x0b' || c = '\x0c'

/-- Word character class of the regex `\b` boundary (`[A-Za-z0-9_]`). -/
def isWordChar (c : Char) : Bool :=
  c.isAlphanum || c = '_'

/-- ASCII letter, the `[A-Za-z]` class. -/
def isAsciiLetter (c : Char) : Bool :=
  ('a' ≤ c && c ≤ 'z') || ('A' ≤ c && c ≤ 'Z')

/-- ASCII digit. -/
def isAsciiDigit (c : Char) : Bool :=
  '0' ≤ c && c ≤ '9'

/-- Lower-case a string character by character (Python `str.lower`,
ASCII fragment). -/
def pyLower (s : String) : String :=
  String.mk (s.data.map Char.toLower)

/-- Remainder of `s` after the prefix `w`, or `none` when `w` is not a
prefix of `s`. -/
def stripPref : List Char → List Char → Option (List Char)
  | [], s => some s
  | _, [] => none
  | a :: w, b :: s => if a = b then stripPref w s else none

/-- Remainder of `s` after the prefix `w`, compared case-insensitively. -/
def stripPrefCI : List Char → List Char → Option (List Char)
  | [], s => some s
  | _, [] => none
  | a :: w, b :: s => if a.toLower = b.toLower then stripPrefCI w s else none

/-- Boolean prefix test on character lists. -/
def startsL (w s : List Char) : Bool :=
  (stripPref w s).isSome

/-- Boolean substring test on character lists (Python `needle in hay`). -/
def substrL (needle : List Char) : List Char → Bool
  | [] => needle.isEmpty
  | c :: rest => startsL needle (c :: rest) || substrL needle rest

/-- Substring test on strings. -/
def containsStr (hay needle : String) : Bool :=
  substrL needle.data hay.data

/-- Strip leading and trailing Python whitespace from a character list
(Python `str.strip()`). -/
def pyStripL (l : List Char) : List Char :=
  ((l.dropWhile isPySpace).reverse.dropWhile isPySpace).reverse

/-- Strip leading and trailing whitespace from a string. -/
def pyStrip (s : String) : String :=
  String.mk (pyStripL s.data)

/-- Drop the first `n` characters (Python `s[n:]`). -/
def dropChars (n : Nat) (s : String) : String :=
  String.mk (s.data.drop n)

/-- Collapse every maximal whitespace run to a single space; the flag
records whether the previous character belonged to a run.  This realises
the preprocessor `re.sub(r"\s+", " ", m)`. -/
def collapseAux : Bool → List Char → List Char
  | _, [] => []
  | prevWs, c :: rest =>
    if isPySpace c then
      if prevWs then collapseAux true rest else ' ' :: collapseAux true rest
    else c :: collapseAux false rest

/-- The whitespace-collapsing preprocessor. -/
def collapseWs (s : String) : String :=
  String.mk (collapseAux false s.data)

/-- Python `str.split()` (no argument): split on whitespace runs,
discarding empty pieces. -/
def pySplitAux : List Char → List Char → List (List Char)
  | acc, [] => if acc.isEmpty then [] else [acc.reverse]
  | acc, c :: rest =>
    if isPySpace c then
      if acc.isEmpty then pySplitAux [] rest else acc.reverse :: pySplitAux [] rest
    else pySplitAux (c :: acc) rest

/-- Python `str.split()` on a string. -/
def pySplit (s : String) : List (List Char) :=
  pySplitAux [] s.data

/-- Everything after the first literal space, or `none` when the string has
no space (the tail of Python `s.split(" ", 1)`). -/
def afterFirstSpace : List Char → Option (List Char)
  | [] => none
  | c :: rest => if c = ' ' then some rest else afterFirstSpace rest

/-- Value of a digit character. -/
def digitVal (c : Char) : Nat :=
  c.toNat - '0'.toNat

/-- Parse a nonempty all-digit character list as a natural number. -/
def digitsToNat : List Char → Option Nat
  | [] => none
  | l => digitsToNatAux 0 l
where
  digitsToNatAux : Nat → List Char → Option Nat
    | acc, [] => some acc
    | acc, c :: rest =>
      if isAsciiDigit c then digitsToNatAux (acc * 10 + digitVal c) rest else none

/-- Digit-group parser for Python `int(...)`: digits possibly separated by
single underscores (no leading, trailing or doubled underscore). -/
def pyDigits : Nat → List Char → Option Nat
  | acc, [] => some acc
  | acc, '_' :: c :: rest =>
    if isAsciiDigit c then pyDigits (acc * 10 + digitVal c) rest else none
  | _, '_' :: [] => none
  | acc, c :: rest =>
    if isAsciiDigit c then pyDigits (acc * 10 + digitVal c) rest else none

/-- Python `int(token)` on a whitespace-free token: optional sign followed
by an underscore-grouped digit string. -/
def pyIntParse (l : List Char) : Option Int :=
  match l with
  | '+' :: c :: rest =>
    if isAsciiDigit c then (pyDigits (digitVal c) rest).map (fun n => (n : Int)) else none
  | '-' :: c :: rest =>
    if isAsciiDigit c then (pyDigits (digitVal c) rest).map (fun n => -(n : Int)) else none
  | c :: rest =>
    if isAsciiDigit c then (pyDigits (digitVal c) rest).map (fun n => (n : Int)) else none
  | [] => none

/-- Join a list of strings with a separator (Python `sep.join`). -/
def joinSep (sep : String) : List String → String
  | [] => ""
  | [x] => x
  | x :: rest => x ++ sep ++ joinSep sep rest

/-! ## Time model

The external `datetime` collaborator is modelled by whole minutes since an
arbitrary epoch: `timedelta(minutes=a)` is `a`, `timedelta(hours=a)` is
`60 * a`, `timedelta(days=a)` is `1440 * a`, and `replace(hour=9, minute=0,
second=0, microsecond=0)` floors to the day and adds `540` minutes.
`isoformat` is modelled as decimal rendering of the counter and
`fromisoformat` as its parser (failing, like the library, on anything
else); the cosmetic `strftime` renderings are modelled by the same decimal
rendering since no specified behaviour depends on their exact shape. -/

/-- Render a timestamp (stand-in for `datetime.isoformat`). -/
def isoformat (n : Nat) : String :=
  toString n

/-- Parse a timestamp (stand-in for `datetime.fromisoformat`, which raises
on malformed input). -/
def fromisoformat (s : String) : Option Nat :=
  digitsToNat s.data

/-- Stand-in for `strftime("%I:%M %p on %b %d")` in the reminder
confirmation. -/
def strftimeDue (n : Nat) : String :=
  toString n

/-- Stand-in for `strftime("%b %d, %I:%M %p")` in the notes listing. -/
def strftimeNote (n : Nat) : String :=
  toString n

/-- Calendar date used by the `age` handler (`date.today()` and the parsed
birth date). -/
structure Date where
  year : Nat
  month : Nat
  day : Nat
deriving Repr, DecidableEq

/-- The frozen clock a single `process` call runs under: `now` is the
minute counter returned by `datetime.now()`/`datetime.utcnow()`, `today`
the value of `date.today()`. -/
structure Clock where
  now : Nat
  today : Date
deriving Repr, DecidableEq

/-! ## Data model -/

/-- Confidence literal of the source, in hundredths: `conf 95` embeds the
Python float `0.95`.  Written through `mkRat` so that kernel evaluation of
decidable equalities goes through (the scientific-literal construction of
rationals is irreducible). -/
def conf (n : Nat) : ℚ :=
  mkRat n 100

/-- The `AgentResponse` dataclass.  `metadata` is an insertion-ordered
string-keyed dictionary, modelled as an association list; `confidence` is
a rational standing in for the Python float literals. -/
structure AgentResponse where
  text : String
  intent : String := "unknown"
  confidence : ℚ := conf 0
  metadata : List (String × String) := []
deriving Repr, DecidableEq

/-- A stored reminder (`{"text": ..., "due_time": iso, "created": iso}`). -/
structure Reminder where
  text : String
  due_time : String
  created : String
deriving Repr, DecidableEq

/-- A stored note (`{"text": ..., "created": iso}`). -/
structure Note where
  text : String
  created : String
deriving Repr, DecidableEq

/-- A stored task (`{"text": ..., "completed": bool, "completed_at": iso}`,
the last key only present once completed). -/
structure Task where
  text : String
  completed : Bool
  completed_at : Option String
deriving Repr, DecidableEq

/-- The persistent memory store `self._memory`, typed by the keys the
handlers use; a field is `none` while its key is absent from the dict. -/
structure Memory where
  user_name : Option String := none
  reminders : Option (List Reminder) := none
  notes : Option (List Note) := none
  tasks : Option (List Task) := none
deriving Repr, DecidableEq

/-- The empty store a fresh agent starts from. -/
def emptyMemory : Memory := {}

/-- In-process memory plus the persisted copy on disk; `file` is what
`_save_memory` last wrote (or what `_load_memory` found). -/
structure AgentState where
  memory : Memory
  file : Option Memory
deriving Repr, DecidableEq

/-- The caller-supplied context mapping; only the `user_name` key is ever
read. -/
structure Ctx where
  user_name : Option String := none
deriving Repr, DecidableEq

/-- Python dict `setdefault` on the metadata association list: keep an
existing binding, otherwise append the new one. -/
def setdefault (m : List (String × String)) (k v : String) : List (String × String) :=
  if (m.lookup k).isSome then m else m ++ [(k, v)]

/-- Python truthiness of an optional string (`None` and `""` are falsy). -/
def isTruthy : Option String → Bool
  | some s => s ≠ ""
  | none => false

/-! ## Regex machinery

Each regular expression of the source is embedded as a hand-rolled matcher
with Python `re` semantics: leftmost match, greedy quantifiers with
backtracking, alternation trying alternatives left to right. -/

/-- Word-boundary match of `w` at the head of `s`, where `prev` is the
character immediately before this position (`none` at the start of the
string). -/
def wordBoundedAt (w : List Char) (prev : Option Char) (s : List Char) : Bool :=
  match stripPref w s with
  | none => false
  | some rest =>
    (match prev with
     | none => true
     | some p => !isWordChar p)
    && (match rest with
        | [] => true
        | r :: _ => !isWordChar r)

/-- Search for any of the words `ws` delimited by `\b` boundaries, as in
`re.search(r"\b(hi|hello|hey)\b", s)` applied to a lower-cased string. -/
def searchWB (ws : List (List Char)) : Option Char → List Char → Bool
  | _, [] => false
  | prev, c :: rest =>
    ws.any (fun w => wordBoundedAt w prev (c :: rest)) || searchWB ws (some c) rest

/-- Greedy tail of the name group `[A-Za-z\-']{1,29}`: take up to `k` more
characters of the class. -/
def nameTail : Nat → List Char → List Char
  | _, [] => []
  | 0, _ => []
  | k + 1, c :: rest =>
    if isAsciiLetter c || c = '-' || c = '\'' then c :: nameTail k rest else []

/-- The name group `[A-Za-z][A-Za-z\-']{1,29}` anchored at the head of
`l`: a letter followed by one to twenty-nine more class characters taken
greedily; the quantifier's lower bound makes a lone letter fail (and the
preceding `\s+` cannot give a character back, every candidate being
whitespace). -/
def nameFrom : List Char → Option String
  | [] => none
  | a :: r =>
    if isAsciiLetter a then
      match nameTail 29 r with
      | [] => none
      | tl => some (String.mk (a :: tl))
    else none

/-- Match of `i\s*'?m\s+(?P<name>[A-Za-z][A-Za-z\-']{1,29})` (ignore-case)
anchored at the head of `s`, returning the captured name. -/
def nameMatchAt : List Char → Option String
  | [] => none
  | c :: rest =>
    if c.toLower = 'i' then
      let r1 := rest.dropWhile isPySpace
      let r2 := match r1 with
        | '\'' :: r => r
        | r => r
      match r2 with
      | [] => none
      | m :: r3 =>
        if m.toLower = 'm' then
          match r3 with
          | [] => none
          | w :: _ =>
            if isPySpace w then nameFrom (r3.dropWhile isPySpace)
            else none
        else none
    else none

/-- Leftmost search for the name pattern over all positions. -/
def extractNameL : List Char → Option String
  | [] => none
  | c :: rest =>
    match nameMatchAt (c :: rest) with
    | some n => some n
    | none => extractNameL rest

/-- The best-effort name extraction of `handle_greeting`. -/
def extractName (s : String) : Option String :=
  extractNameL s.data

/-- Time unit selected by the alternation
`(minute|minutes|hour|hours|day|days)`. -/
inductive TimeUnit
  | minute
  | hour
  | day
deriving Repr, DecidableEq

/-- Minutes per unit (`timedelta(minutes= | hours= | days= ...)`). -/
def unitMinutes : TimeUnit → Nat
  | .minute => 1
  | .hour => 60
  | .day => 1440

/-- First alternative of the unit alternation that matches at the head of
`s` (note that `minute` shadows `minutes` and so on, exactly as in the
Python alternation). -/
def timeUnitAt (s : List Char) : Option TimeUnit :=
  if startsL "minute".data s then some .minute
  else if startsL "minutes".data s then some .minute
  else if startsL "hour".data s then some .hour
  else if startsL "hours".data s then some .hour
  else if startsL "day".data s then some .day
  else if startsL "days".data s then some .day
  else none

/-- Match of `in (\d+) (minute|minutes|hour|hours|day|days)` anchored at
the head of a lower-cased string, returning the captured groups. -/
def timeMatchAt (s : List Char) : Option (Nat × TimeUnit) :=
  match stripPref "in ".data s with
  | none => none
  | some r1 =>
    let ds := r1.takeWhile isAsciiDigit
    if ds.isEmpty then none
    else
      match r1.drop ds.length with
      | ' ' :: r3 =>
        match timeUnitAt r3 with
        | some u => (digitsToNat ds).map (fun a => (a, u))
        | none => none
      | _ => none

/-- Leftmost search for the relative time expression
(`re.search(r'in (\d+) (minute|...|days)', msg_lower)`). -/
def findTimeMatchL : List Char → Option (Nat × TimeUnit)
  | [] => none
  | c :: rest =>
    match timeMatchAt (c :: rest) with
    | some r => some r
    | none => findTimeMatchL rest

/-- Day-anchor words of `re.search(r'(tomorrow|today)', msg_lower)`. -/
inductive WhenWord
  | tomorrow
  | today
deriving Repr, DecidableEq

/-- Anchored match of the day-anchor alternation. -/
def whenAt (s : List Char) : Option WhenWord :=
  if startsL "tomorrow".data s then some .tomorrow
  else if startsL "today".data s then some .today
  else none

/-- Leftmost search for a day-anchor word. -/
def findWhenL : List Char → Option WhenWord
  | [] => none
  | c :: rest =>
    match whenAt (c :: rest) with
    | some r => some r
    | none => findWhenL rest

/-- Length of the leading Python-whitespace run. -/
def wsCount (s : List Char) : Nat :=
  (s.takeWhile isPySpace).length

/-- Length matched by the optional group `(to\s+)?` (zero when the group
matches empty). -/
def toLeadLen (s : List Char) : Nat :=
  match stripPrefCI "to".data s with
  | some r =>
    let k := wsCount r
    if 1 ≤ k then 2 + k else 0
  | none => 0

/-- Length of the anchored match of `remind(me)?\s+(to\s+)?` (ignore-case);
the greedy `(me)?` group is tried first and only then dropped, mirroring
regex backtracking. -/
def remindLeadLen (s : List Char) : Option Nat :=
  match stripPrefCI "remind".data s with
  | none => none
  | some r1 =>
    let viaMe : Option Nat :=
      match stripPrefCI "me".data r1 with
      | some r2 =>
        let k := wsCount r2
        if 1 ≤ k then some (6 + 2 + k + toLeadLen (r2.drop k)) else none
      | none => none
    match viaMe with
    | some L => some L
    | none =>
      let k := wsCount r1
      if 1 ≤ k then some (6 + k + toLeadLen (r1.drop k)) else none

/-- Length of the first alternative of the unit alternation matching at
the head of `s`, compared case-insensitively. -/
def timeUnitLenCI (s : List Char) : Option Nat :=
  if (stripPrefCI "minute".data s).isSome then some 6
  else if (stripPrefCI "minutes".data s).isSome then some 7
  else if (stripPrefCI "hour".data s).isSome then some 4
  else if (stripPrefCI "hours".data s).isSome then some 5
  else if (stripPrefCI "day".data s).isSome then some 3
  else if (stripPrefCI "days".data s).isSome then some 4
  else none

/-- Length of the anchored match of
`in \d+ (minute|minutes|hour|hours|day|days)` (ignore-case). -/
def timeExprLen (s : List Char) : Option Nat :=
  match stripPrefCI "in ".data s with
  | none => none
  | some r1 =>
    let ds := r1.takeWhile isAsciiDigit
    if ds.isEmpty then none
    else
      match r1.drop ds.length with
      | ' ' :: r3 => (timeUnitLenCI r3).map (fun u => 3 + ds.length + 1 + u)
      | _ => none

/-- Length of the anchored match of `(tomorrow|today)` (ignore-case). -/
def whenWordLen (s : List Char) : Option Nat :=
  if (stripPrefCI "tomorrow".data s).isSome then some 8
  else if (stripPrefCI "today".data s).isSome then some 5
  else none

/-- Delete every non-overlapping leftmost match of the anchored matcher
`f` (the behaviour of `re.sub(pattern, '', s)`); `f` reports the matched
length.  The fuel argument dominates the list length, every matcher of
this file reports a positive length. -/
def subAllAux (f : List Char → Option Nat) : Nat → List Char → List Char
  | 0, _ => []
  | _, [] => []
  | fuel + 1, c :: rest =>
    match f (c :: rest) with
    | some L => subAllAux f fuel ((c :: rest).drop L)
    | none => c :: subAllAux f fuel rest

/-- String-level `re.sub(pattern, '', s)`. -/
def subAllStr (f : List Char → Option Nat) (s : String) : String :=
  String.mk (subAllAux f (s.data.length + 1) s.data)

/-! ## Predicates (in source order) -/

/-- Predicate of the greeting rule. -/
def is_greeting (m : String) : Bool :=
  searchWB ["hi".data, "hello".data, "hey".data] none (pyLower m).data

/-- Predicate of the help rule. -/
def is_help (m : String) : Bool :=
  let l := pyLower m
  containsStr l "help" || containsStr l "what can you do" ||
    containsStr l "commands" || containsStr l "?help"

/-- Predicate of the farewell rule. -/
def is_farewell (m : String) : Bool :=
  searchWB ["bye".data, "goodbye".data, "see ya".data, "ttyl".data] none (pyLower m).data

/-- Predicate of the echo rule. -/
def is_echo (m : String) : Bool :=
  let l := pyLower m
  startsL "/echo ".data l.data || l = "/echo"

/-- Predicate of the calc rule. -/
def is_calc (m : String) : Bool :=
  startsL "calc ".data (pyLower m).data

/-- Predicate of the age rule. -/
def is_age (m : String) : Bool :=
  startsL "age ".data (pyLower m).data

/-- Predicate of the leap-year rule. -/
def is_leap (m : String) : Bool :=
  startsL "leap ".data (pyLower m).data

/-- Predicate of the reminder rule. -/
def is_reminder (m : String) : Bool :=
  let l := pyLower m
  startsL "remind".data l.data || l = "reminders"

/-- Predicate of the note rule. -/
def is_note (m : String) : Bool :=
  let l := pyLower m
  startsL "note ".data l.data || l = "notes"

/-- Predicate of the task rule. -/
def is_task (m : String) : Bool :=
  let l := pyLower m
  startsL "task ".data l.data || l = "tasks" ||
    startsL "done ".data l.data || startsL "delete task ".data l.data

/-- Modelled from the spec: predicate of the search rule (spec §4.2 item
11, in the truncated region of src/messsage_agent.py) — the message starts
with the search command token. -/
def is_search (m : String) : Bool :=
  startsL "search ".data (pyLower m).data

/-! ## Handlers -/

/-- Greeting response when a (truthy) user name is available. -/
def greetResp (n : String) : AgentResponse :=
  { text := "Hello, " ++ n ++ "! How can I help you today?"
    intent := "greet", confidence := conf 95 }

/-- Greeting response without a name. -/
def greetRespAnon : AgentResponse :=
  { text := "Hello! How can I help you today?", intent := "greet", confidence := conf 95 }

/-- Extraction arm of the greeting handler, reached when neither the
context nor the store supplies a truthy user name. -/
def greetExtract (message : String) (mem : Memory) : AgentResponse × Memory :=
  match extractName message with
  | some n => (greetResp n, { mem with user_name := some n })
  | none => (greetRespAnon, mem)

/-- The greeting handler. -/
def handle_greeting (message : String) (ctx : Ctx) (mem : Memory) : AgentResponse × Memory :=
  match (if isTruthy ctx.user_name then ctx.user_name else mem.user_name) with
  | some n => if n = "" then greetExtract message mem else (greetResp n, mem)
  | none => greetExtract message mem

/-- The fixed capability summary of the help handler. -/
def helpText : String :=
  "I can:\n" ++
  "- Respond to greetings, goodbyes, and echo text.\n" ++
  "- Calculate math: 'calc 2+2*5'.\n" ++
  "- Tell age: 'age 2000-05-17'.\n" ++
  "- Check leap year: 'leap 2024'.\n\n" ++
  "NEW FEATURES:\n" ++
  "- Reminders: 'remind me to call mom in 2 hours' or 'remind buy milk tomorrow'.\n" ++
  "- Notes: 'note remember password is 1234' or 'notes' to list all.\n" ++
  "- Tasks: 'task buy groceries' or 'tasks' to list, 'done 1' to complete.\n" ++
  "- Search: 'search python tutorials' or 'search weather today'.\n\n" ++
  "Use '/reset' to clear memory."

/-- The help handler. -/
def handle_help : AgentResponse :=
  { text := helpText, intent := "help", confidence := conf 90 }

/-- The farewell handler. -/
def handle_farewell : AgentResponse :=
  { text := "Goodbye! üëã", intent := "farewell", confidence := conf 90 }

/-- The echo handler (`message.split(" ", 1)`). -/
def handle_echo (message : String) : AgentResponse :=
  let t := match afterFirstSpace message.data with
    | some r => String.mk r
    | none => ""
  { text := t, intent := "echo", confidence := conf 99 }

/-- The calc handler, delegating to the external restricted-expression
evaluator `ev` (the spec's collaborator behind Python `eval` over the
`math` namespace). -/
def handle_calc (ev : String → Except String String) (message : String) : AgentResponse :=
  let expr := pyStrip (dropChars 5 message)
  match ev expr with
  | .ok v => { text := "Result: " ++ v, intent := "calc", confidence := conf 95 }
  | .error e => { text := "Error in calculation: " ++ e, intent := "error", confidence := conf 100 }

/-- Usage response of the age handler. -/
def ageUsage : AgentResponse :=
  { text := "Usage: age YYYY-MM-DD (example: age 2000-05-17)", intent := "error", confidence := conf 100 }

/-- Split a character list on every occurrence of `sep`, keeping empty
pieces (Python `str.split(sep)`). -/
def splitOnChar (sep : Char) : List Char → List (List Char)
  | [] => [[]]
  | c :: rest =>
    let r := splitOnChar sep rest
    if c = sep then [] :: r
    else
      match r with
      | h :: t => (c :: h) :: t
      | [] => [[c]]

/-- Days in a month of the proleptic Gregorian calendar, as the external
datetime library validates them. -/
def daysInMonth (y m : Nat) : Nat :=
  if m = 2 then (if (y % 4 = 0 && y % 100 ≠ 0) || y % 400 = 0 then 29 else 28)
  else if m = 4 || m = 6 || m = 9 || m = 11 then 30
  else 31

/-- Model of `datetime.strptime(s, "%Y-%m-%d")` from the external
datetime collaborator: three dash-separated digit groups forming a valid
calendar date in the library's supported year range. -/
def parseDate (s : String) : Option Date :=
  match splitOnChar '-' s.data with
  | [y, m, d] =>
    match digitsToNat y, digitsToNat m, digitsToNat d with
    | some y', some m', some d' =>
      if 1 ≤ y' && y' ≤ 9999 && 1 ≤ m' && m' ≤ 12 && 1 ≤ d' && d' ≤ daysInMonth y' m' then
        some ⟨y', m', d'⟩
      else none
    | _, _, _ => none
  | _ => none

/-- The age handler; the tuple comparison
`(today.month, today.day) < (dob.month, dob.day)` is lexicographic. -/
def handle_age (clock : Clock) (message : String) : AgentResponse :=
  match afterFirstSpace message.data with
  | none => ageUsage
  | some r =>
    match parseDate (String.mk (pyStripL r)) with
    | none => ageUsage
    | some dob =>
      let t := clock.today
      let beforeBirthday : Bool :=
        t.month < dob.month || (t.month = dob.month && t.day < dob.day)
      let age : Int := (t.year : Int) - (dob.year : Int) - (if beforeBirthday then 1 else 0)
      { text := "You are " ++ toString age ++ " years old.", intent := "age", confidence := conf 95 }

/-- Usage response of the leap-year handler. -/
def leapUsage : AgentResponse :=
  { text := "Usage: leap YEAR (example: leap 2024)", intent := "error", confidence := conf 100 }

/-- The leap-year handler. -/
def handle_leap (message : String) : AgentResponse :=
  match afterFirstSpace message.data with
  | none => leapUsage
  | some r =>
    match pyIntParse (pyStripL r) with
    | none => leapUsage
    | some y =>
      let isLeapYear : Bool := (y % 4 = 0 && y % 100 ≠ 0) || y % 400 = 0
      { text := toString y ++ " is " ++
          (if isLeapYear then "a leap year" else "not a leap year") ++ "."
        intent := "leap_year", confidence := conf 95 }

/-- Modelled from the spec: the method `_format_time_left`, called by the
reminder listing, lies beyond the truncation point of
src/messsage_agent.py.  Spec §4.2: a human-readable remaining-time string
derived solely from the timedelta, days+hours above one day, hours+minutes
above one hour, else minutes. -/
def formatTimeLeft (delta : Nat) : String :=
  if 1440 ≤ delta then toString (delta / 1440) ++ "d " ++ toString (delta % 1440 / 60) ++ "h"
  else if 60 ≤ delta then toString (delta / 60) ++ "h " ++ toString (delta % 60) ++ "m"
  else toString delta ++ "m"

/-- Listing lines of the reminder handler; `datetime.fromisoformat` raises
on a malformed stored `due_time`, which propagates out of the handler. -/
def reminderLines (now : Nat) : Nat → List Reminder → Except String (List String)
  | _, [] => .ok []
  | idx, r :: rest =>
    match fromisoformat r.due_time with
    | none => .error ("Invalid isoformat string: '" ++ r.due_time ++ "'")
    | some due =>
      let status :=
        if due ≤ now then "‚è∞ DUE" else "‚è≥ " ++ formatTimeLeft (due - now)
      match reminderLines now (idx + 1) rest with
      | .error e => .error e
      | .ok ls => .ok ((toString idx ++ ". " ++ r.text ++ " - " ++ status) :: ls)

/-- Usage response of the reminder set path. -/
def reminderUsage : AgentResponse :=
  { text := "Usage: 'remind me to [task] in [X] hours/days' or 'remind [task] tomorrow'"
    intent := "error", confidence := conf 100 }

/-- The reminder handler.  The listing branch sits outside the handler's
`try` block, so a malformed stored timestamp escapes as an exception; the
set branch never raises. -/
def handle_reminder (clock : Clock) (message : String) (mem : Memory) :
    Except String (AgentResponse × Memory) :=
  let msgLower := pyLower message
  if msgLower = "reminders" then
    match mem.reminders.getD [] with
    | [] => .ok ({ text := "No reminders set.", intent := "reminder_list", confidence := conf 95 }, mem)
    | rs =>
      match reminderLines clock.now 1 rs with
      | .error e => .error e
      | .ok lines =>
        .ok ({ text := "Your reminders:\n" ++ joinSep "\n" lines
               intent := "reminder_list", confidence := conf 95 }, mem)
  else
    let due : Option Nat :=
      match findTimeMatchL msgLower.data with
      | some (amount, u) => some (clock.now + amount * unitMinutes u)
      | none =>
        match findWhenL msgLower.data with
        | some .tomorrow => some (((clock.now + 1440) / 1440) * 1440 + 9 * 60)
        | some .today => some (clock.now + 60)
        | none => none
    match due with
    | none => .ok (reminderUsage, mem)
    | some d =>
      let t1 := subAllStr remindLeadLen message
      let t2 := subAllStr timeExprLen t1
      let t3 := subAllStr whenWordLen t2
      let stripped := pyStrip t3
      let rtext := if stripped = "" then "Reminder" else stripped
      let rs := mem.reminders.getD []
      let mem' := { mem with
        reminders := some (rs ++ [⟨rtext, isoformat d, isoformat clock.now⟩]) }
      .ok ({ text := "‚úì Reminder set: '" ++ rtext ++ "' at " ++ strftimeDue d
             intent := "reminder_set", confidence := conf 95 }, mem')

/-- Listing lines of the note handler; `datetime.fromisoformat` raises on
a malformed stored `created` timestamp. -/
def noteLines : Nat → List Note → Except String (List String)
  | _, [] => .ok []
  | idx, n :: rest =>
    match fromisoformat n.created with
    | none => .error ("Invalid isoformat string: '" ++ n.created ++ "'")
    | some t =>
      match noteLines (idx + 1) rest with
      | .error e => .error e
      | .ok ls => .ok ((toString idx ++ ". " ++ n.text ++ " (" ++ strftimeNote t ++ ")") :: ls)

/-- The note handler. -/
def handle_note (clock : Clock) (message : String) (mem : Memory) :
    Except String (AgentResponse × Memory) :=
  let msgLower := pyLower message
  if msgLower = "notes" then
    match mem.notes.getD [] with
    | [] => .ok ({ text := "No notes saved.", intent := "note_list", confidence := conf 95 }, mem)
    | ns =>
      match noteLines 1 ns with
      | .error e => .error e
      | .ok lines =>
        .ok ({ text := "Your notes:\n" ++ joinSep "\n" lines
               intent := "note_list", confidence := conf 95 }, mem)
  else
    let noteText := pyStrip (dropChars 5 message)
    if noteText = "" then
      .ok ({ text := "Usage: 'note [your note text]' or 'notes' to list all"
             intent := "error", confidence := conf 100 }, mem)
    else
      let ns := mem.notes.getD []
      let mem' := { mem with notes := some (ns ++ [⟨noteText, isoformat clock.now⟩]) }
      .ok ({ text := "‚úì Note saved: '" ++ noteText ++ "'"
             intent := "note_add", confidence := conf 95 }, mem')

/-- Pending and completed listing lines of the task handler, partitioned
by the completion flag while keeping the 1-based position in the
underlying list. -/
def taskLines (idx : Nat) : List Task → List String × List String
  | [] => ([], [])
  | t :: rest =>
    let (p, c) := taskLines (idx + 1) rest
    let line := toString idx ++ ". " ++ (if t.completed then "‚úì" else "‚óã") ++ " " ++ t.text
    if t.completed then (p, line :: c) else (line :: p, c)

/-- Mark the task at 0-based index `i` completed and stamp its completion
time (`tasks[n-1]["completed"] = True; tasks[n-1]["completed_at"] = ...`). -/
def completeAt (now : Nat) : List Task → Nat → List Task
  | [], _ => []
  | t :: rest, 0 => { t with completed := true, completed_at := some (isoformat now) } :: rest
  | t :: rest, i + 1 => t :: completeAt now rest i

/-- Usage response of the `done` branch. -/
def doneUsage : AgentResponse :=
  { text := "Usage: 'done [task number]' (example: done 1)", intent := "error", confidence := conf 100 }

/-- The task handler.  The listing and `done` branches are translated from
src/messsage_agent.py; the file is truncated inside this function, so the
remaining branches are modelled from the spec: the add branch appends
`{text, completed: false}` symmetrically with notes (spec §4, Tasks
handling), and the recognised `delete task` token has no implemented
behaviour (spec §9 open question), modelled as an error response. -/
def handle_task (clock : Clock) (message : String) (mem : Memory) :
    Except String (AgentResponse × Memory) :=
  let msgLower := pyLower message
  if msgLower = "tasks" then
    match mem.tasks.getD [] with
    | [] => .ok ({ text := "No tasks found.", intent := "task_list", confidence := conf 95 }, mem)
    | ts =>
      let (pending, completed) := taskLines 1 ts
      let sections :=
        (if pending.isEmpty then [] else ["Pending:\n" ++ joinSep "\n" pending]) ++
        (if completed.isEmpty then [] else ["Completed:\n" ++ joinSep "\n" completed])
      .ok ({ text := if sections.isEmpty then "No tasks found." else joinSep "\n\n" sections
             intent := "task_list", confidence := conf 95 }, mem)
  else if startsL "done ".data msgLower.data then
    match ((pySplit message).get? 1).bind pyIntParse with
    | none => .ok (doneUsage, mem)
    | some n =>
      let ts := mem.tasks.getD []
      if 1 ≤ n ∧ n ≤ (ts.length : Int) then
        .ok ({ text := "‚úì Task " ++ toString n ++ " marked as done!"
               intent := "task_complete", confidence := conf 95 },
             { mem with tasks := some (completeAt clock.now ts (n - 1).toNat) })
      else
        .ok ({ text := "Task " ++ toString n ++ " not found.", intent := "error", confidence := conf 100 }, mem)
  else if startsL "task ".data msgLower.data then
    let taskText := pyStrip (dropChars 5 message)
    if taskText = "" then
      .ok ({ text := "Usage: 'task [task text]' or 'tasks' to list all"
             intent := "error", confidence := conf 100 }, mem)
    else
      let ts := mem.tasks.getD []
      let mem' := { mem with tasks := some (ts ++ [⟨taskText, false, none⟩]) }
      .ok ({ text := "‚úì Task added: '" ++ taskText ++ "'"
             intent := "task_add", confidence := conf 95 }, mem')
  else
    .ok ({ text := "Task deletion is not implemented.", intent := "error", confidence := conf 100 }, mem)

/-- Modelled from the spec: the search handler (spec §4.2 item 11, in the
truncated region of src/messsage_agent.py) forwards the remainder of the
message to the external web-query collaborator `sf` and returns its text
result, or a failure response when the collaborator errors; the success
intent and confidence values are not fixed by the spec and no verified
property depends on them. -/
def handle_search (sf : String → Except String String) (message : String) : AgentResponse :=
  match sf (pyStrip (dropChars 7 message)) with
  | .ok v => { text := v, intent := "search", confidence := conf 90 }
  | .error e => { text := "Search error: " ++ e, intent := "error", confidence := conf 100 }

/-- Modelled from the spec: `_fallback_handler` is invoked at the end of
the dispatch loop but its body lies beyond the truncation point of
src/messsage_agent.py.  Spec §4.2 item 12: an unconditional low-confidence
no-match response, intent `fallback`, never raises and touches no memory. -/
def fallback_handler (_message : String) (_ctx : Ctx) : AgentResponse :=
  { text := "Sorry, I didn't understand that. Type 'help' to see what I can do."
    intent := "fallback", confidence := conf 30 }

/-! ## Rule registry and dispatcher -/

/-- A registered `(predicate, handler)` pair.  Handlers receive the frozen
clock and the current memory and either return a response with the updated
memory or raise. -/
structure Rule where
  pred : String → Ctx → Bool
  handle : Clock → String → Ctx → Memory → Except String (AgentResponse × Memory)

/-- The rules installed by `_install_default_handlers`, in registration
order.  The registrations of the task and search rules follow the spec
(§4.2 items 10 and 11); they lie beyond the truncation point of
src/messsage_agent.py, which ends inside `handle_task`.  `ev` is the
external restricted-expression evaluator, `sf` the external web-search
collaborator. -/
def defaultRules (ev sf : String → Except String String) : List Rule :=
  [ ⟨fun m _ => is_greeting m, fun _ m ctx mem => .ok (handle_greeting m ctx mem)⟩,
    ⟨fun m _ => is_help m, fun _ _ _ mem => .ok (handle_help, mem)⟩,
    ⟨fun m _ => is_farewell m, fun _ _ _ mem => .ok (handle_farewell, mem)⟩,
    ⟨fun m _ => is_echo m, fun _ m _ mem => .ok (handle_echo m, mem)⟩,
    ⟨fun m _ => is_calc m, fun _ m _ mem => .ok (handle_calc ev m, mem)⟩,
    ⟨fun m _ => is_age m, fun ck m _ mem => .ok (handle_age ck m, mem)⟩,
    ⟨fun m _ => is_leap m, fun _ m _ mem => .ok (handle_leap m, mem)⟩,
    ⟨fun m _ => is_reminder m, fun ck m _ mem => handle_reminder ck m mem⟩,
    ⟨fun m _ => is_note m, fun ck m _ mem => handle_note ck m mem⟩,
    ⟨fun m _ => is_task m, fun ck m _ mem => handle_task ck m mem⟩,
    ⟨fun m _ => is_search m, fun _ m _ mem => .ok (handle_search sf m, mem)⟩ ]

/-- Run a matched rule: a normal handler return gets the `received_at` and
`original_message` metadata defaults; a raising handler is converted to an
error response tagged `stage=handler`, leaving memory as the handler left
it (every raising default handler raises before mutating). -/
def applyRule (clock : Clock) (orig m : String) (ctx : Ctx) (mem : Memory) (r : Rule) :
    AgentResponse × Memory :=
  match r.handle clock m ctx mem with
  | .ok (resp, mem') =>
    let md := setdefault
      (setdefault resp.metadata "received_at" (isoformat clock.now ++ "Z"))
      "original_message" orig
    ({ resp with metadata := md }, mem')
  | .error e =>
    ({ text := "Handler error: " ++ e, intent := "error", confidence := conf 100
       metadata := [("stage", "handler")] }, mem)

/-- Scan the registry in registration order; `none` when no predicate
matches (the `for ... else` fallback case). -/
def scanRules (clock : Clock) (orig m : String) (ctx : Ctx) (mem : Memory) :
    List Rule → Option (AgentResponse × Memory)
  | [] => none
  | r :: rest =>
    if r.pred m ctx then some (applyRule clock orig m ctx mem r)
    else scanRules clock orig m ctx mem rest

/-- Dispatch phase: first matching rule, or the fallback handler. -/
def dispatchPhase (rules : List Rule) (clock : Clock) (orig m : String) (ctx : Ctx)
    (mem : Memory) : AgentResponse × Memory :=
  match scanRules clock orig m ctx mem rules with
  | some p => p
  | none => (fallback_handler m ctx, mem)

/-- Run the preprocessor chain, stopping at the first failure. -/
def runPres : List (String → Except String String) → String → Except String String
  | [], s => .ok s
  | p :: ps, s =>
    match p s with
    | .ok s' => runPres ps s'
    | .error e => .error e

/-- Run the postprocessor chain, stopping at the first failure. -/
def runPosts : List (AgentResponse → Except String AgentResponse) → AgentResponse →
    Except String AgentResponse
  | [], r => .ok r
  | p :: ps, r =>
    match p r with
    | .ok r' => runPosts ps r'
    | .error e => .error e

/-- The dispatcher `MessageAgent.process`.  A preprocessor failure returns
before the dispatch with nothing saved; after the dispatch the
postprocessors run, and only when all of them succeed is the memory
persisted (`_save_memory`, a full overwrite of `file`); a postprocessor
failure returns the `stage=postprocessor` error response with the
in-process memory mutated but the persisted copy untouched. -/
def process (pres : List (String → Except String String))
    (posts : List (AgentResponse → Except String AgentResponse))
    (rules : List Rule) (clock : Clock) (message : String) (ctx : Ctx)
    (st : AgentState) : AgentResponse × AgentState :=
  match runPres pres message with
  | .error e =>
    ({ text := "Preprocessor error: " ++ e, intent := "error", confidence := conf 100
       metadata := [("stage", "preprocessor")] }, st)
  | .ok m =>
    let pr := dispatchPhase rules clock message m ctx st.memory
    match runPosts posts pr.1 with
    | .error e =>
      ({ text := "Postprocessor error: " ++ e, intent := "error", confidence := conf 100
         metadata := [("stage", "postprocessor")] }, { st with memory := pr.2 })
    | .ok resp => (resp, { memory := pr.2, file := some pr.2 })

/-- The two preprocessors installed by `_install_default_handlers`:
`str.strip` and whitespace collapsing. -/
def defaultPres : List (String → Except String String) :=
  [fun s => .ok (pyStrip s), fun s => .ok (collapseWs s)]

/-- Composite effect of the default preprocessors. -/
def preprocessDefault (s : String) : String :=
  collapseWs (pyStrip s)

/-- Modelled from the spec: a concrete instance of the external
restricted-expression evaluator collaborator (§6), used to instantiate
theorems at specific inputs; no verified property depends on its output. -/
def evalStub : String → Except String String :=
  fun _ => .error "evaluation failed"

/-- Modelled from the spec: a concrete instance of the external
web-search collaborator (§6), used to instantiate theorems at specific
inputs; no verified property depends on its output. -/
def searchStub : String → Except String String :=
  fun _ => .error "search failed"

/-- Default date used when instantiating theorems at a concrete clock. -/
def someDate : Date := ⟨2024, 1, 1⟩

/-- Fresh agent state: empty in-process memory, empty persisted copy. -/
def initState : AgentState := ⟨emptyMemory, some emptyMemory⟩

/-- A user-registered postprocessor that raises, used to exercise the
postprocessor failure path of the dispatcher. -/
def failingPost : AgentResponse → Except String AgentResponse :=
  fun _ => .error "boom"

/-- A user-registered preprocessor that raises, used to exercise the
preprocessor failure path of the dispatcher. -/
def failingPre : String → Except String String :=
  fun _ => .error "boom"

/-- A store holding a reminder with a malformed `due_time`, which makes
the listing branch raise inside the handler. -/
def badReminderMem : Memory := { reminders := some [⟨"x", "zzz", "0"⟩] }

/-- Dispatch phase of a default-configuration `process` call (preprocessed
message, default rules). -/
def dispatchDefault (ev sf : String → Except String String) (clock : Clock) (msg : String)
    (ctx : Ctx) (mem : Memory) : AgentResponse × Memory :=
  dispatchPhase (defaultRules ev sf) clock msg (preprocessDefault msg) ctx mem

/-- A store holding one pending task, for instantiating the `done` branch. -/
def oneTaskMem : Memory := { tasks := some [⟨"buy milk", false, none⟩] }

/-- Scenario run: a failing postprocessor after a note was added (clock 7). -/
def postFailRun : AgentResponse × AgentState :=
  process defaultPres [failingPost] (defaultRules evalStub searchStub) ⟨7, someDate⟩ "note groceries"
    ⟨none⟩ initState

/-- Scenario run: malformed `age` argument under the default configuration. -/
def ageErrRun : AgentResponse × AgentState :=
  process defaultPres [] (defaultRules evalStub searchStub) ⟨0, someDate⟩ "age nope" ⟨none⟩ initState

/-- Scenario run: the spec's note round-trip input, whose word `hello`
also matches the greeting predicate. -/
def noteHelloRun : AgentResponse × AgentState :=
  process defaultPres [] (defaultRules evalStub searchStub) ⟨0, someDate⟩ "note hello world" ⟨none⟩ initState

/-- Listing step after `noteHelloRun`. -/
def noteHelloListRun : AgentResponse × AgentState :=
  process defaultPres [] (defaultRules evalStub searchStub) ⟨5, someDate⟩ "notes" ⟨none⟩ noteHelloRun.2

/-- Note round-trip, first step: add a note whose text matches no earlier
rule (clock 0). -/
def noteRun1 : AgentResponse × AgentState :=
  process defaultPres [] (defaultRules evalStub searchStub) ⟨0, someDate⟩ "note grocery list" ⟨none⟩ initState

/-- Note round-trip, second step: list the notes (clock 5). -/
def noteRun2 : AgentResponse × AgentState :=
  process defaultPres [] (defaultRules evalStub searchStub) ⟨5, someDate⟩ "notes" ⟨none⟩ noteRun1.2

/-- Task round-trip, first step: add a task (clock 0). -/
def taskRun1 : AgentResponse × AgentState :=
  process defaultPres [] (defaultRules evalStub searchStub) ⟨0, someDate⟩ "task buy milk" ⟨none⟩ initState

/-- Task round-trip, second step: complete task 1 (clock 1). -/
def taskRun2 : AgentResponse × AgentState :=
  process defaultPres [] (defaultRules evalStub searchStub) ⟨1, someDate⟩ "done 1" ⟨none⟩ taskRun1.2

/-- Task round-trip, third step: list the tasks (clock 2). -/
def taskRun3 : AgentResponse × AgentState :=
  process defaultPres [] (defaultRules evalStub searchStub) ⟨2, someDate⟩ "tasks" ⟨none⟩ taskRun2.2

/-! ## Dispatcher characterisation lemmas -/

/-- The registry scan is a first-match search: it returns exactly the
first rule (in registration order) whose predicate holds, applied to the
message. -/
theorem scanRules_eq_find (clock : Clock) (orig m : String) (ctx : Ctx) (mem : Memory) :
    ∀ rules : List Rule,
      scanRules clock orig m ctx mem rules
        = (rules.find? (fun r => r.pred m ctx)).map (applyRule clock orig m ctx mem)
  | [] => rfl
  | r :: rest => by
    cases hp : r.pred m ctx <;>
      simp [scanRules, List.find?, hp, scanRules_eq_find clock orig m ctx mem rest]

/-- The default preprocessors never fail and compose to
`preprocessDefault`. -/
theorem runPres_default (s : String) : runPres defaultPres s = .ok (preprocessDefault s) := rfl

/-- A default-configuration `process` call without postprocessors returns
the dispatch result and persists the dispatched memory. -/
theorem process_default_nil (ev sf : String → Except String String) (clock : Clock)
    (msg : String) (ctx : Ctx) (st : AgentState) :
    process defaultPres [] (defaultRules ev sf) clock msg ctx st
      = ((dispatchDefault ev sf clock msg ctx st.memory).1,
         ⟨(dispatchDefault ev sf clock msg ctx st.memory).2,
          some (dispatchDefault ev sf clock msg ctx st.memory).2⟩) := rfl

/-- The default dispatch phase in terms of the first matching rule. -/
theorem dispatchDefault_eq (ev sf : String → Except String String) (clock : Clock)
    (msg : String) (ctx : Ctx) (mem : Memory) :
    dispatchDefault ev sf clock msg ctx mem
      = match (defaultRules ev sf).find? (fun r => r.pred (preprocessDefault msg) ctx) with
        | some r => applyRule clock msg (preprocessDefault msg) ctx mem r
        | none => (fallback_handler (preprocessDefault msg) ctx, mem) := by
  unfold dispatchDefault dispatchPhase
  rw [scanRules_eq_find]
  cases (defaultRules ev sf).find? (fun r => r.pred (preprocessDefault msg) ctx) <;> rfl

/-- Every branch of the greeting handler answers with intent `greet`. -/
theorem handle_greeting_intent (m : String) (ctx : Ctx) (mem : Memory) :
    (handle_greeting m ctx mem).1.intent = "greet" := by
  unfold handle_greeting greetExtract
  rcases (if isTruthy ctx.user_name then ctx.user_name else mem.user_name) with _ | n
  · rcases extractName m with _ | nm <;> simp [greetResp, greetRespAnon]
  · rcases h : decide (n = "") with _ | _
    · simp [of_decide_eq_false h, greetResp]
    · simp [of_decide_eq_true h]
      rcases extractName m with _ | nm <;> simp [greetResp, greetRespAnon]

/-! ## Claim theorems -/

/-- C1: for every input message and context, the dispatcher scans the
registered rules strictly in registration order and runs the handler of
the first predicate returning true and never a later one (the scan equals
a `find?` first-match over the registry); in particular a message whose
preprocessed form matches both the greeting and the farewell predicate is
answered by the greeting handler with intent `greet`. -/
theorem c1_first_match_in_order :
    (∀ (ev sf : String → Except String String) (clock : Clock) (orig m : String)
        (ctx : Ctx) (mem : Memory),
        scanRules clock orig m ctx mem (defaultRules ev sf)
          = ((defaultRules ev sf).find? (fun r => r.pred m ctx)).map (applyRule clock orig m ctx mem))
    ∧ (∀ (ev sf : String → Except String String) (clock : Clock) (msg : String)
        (ctx : Ctx) (st : AgentState),
        is_greeting (preprocessDefault msg) = true →
        is_farewell (preprocessDefault msg) = true →
        (process defaultPres [] (defaultRules ev sf) clock msg ctx st).1.intent = "greet"
        ∧ (process defaultPres [] (defaultRules ev sf) clock msg ctx st).1.text
            = (handle_greeting (preprocessDefault msg) ctx st.memory).1.text) := by
  constructor
  · intro ev sf clock orig m ctx mem
    exact scanRules_eq_find clock orig m ctx mem (defaultRules ev sf)
  · intro ev sf clock msg ctx st hg _hf
    have hfind : (defaultRules ev sf).find? (fun r => r.pred (preprocessDefault msg) ctx)
        = some ⟨fun m _ => is_greeting m, fun _ m ctx mem => .ok (handle_greeting m ctx mem)⟩ := by
      simp [defaultRules, List.find?, hg]
    rw [process_default_nil, dispatchDefault_eq, hfind]
    exact ⟨handle_greeting_intent (preprocessDefault msg) ctx st.memory, rfl⟩

/-- C1 witness: `hi bob, bye` matches both the greeting and the farewell
predicate and is answered with intent `greet`. -/
theorem c1_first_match_in_order_witness :
    is_greeting (preprocessDefault "hi bob, bye") = true
    ∧ is_farewell (preprocessDefault "hi bob, bye") = true
    ∧ (process defaultPres [] (defaultRules evalStub searchStub) ⟨0, someDate⟩ "hi bob, bye" ⟨none⟩
        initState).1.intent = "greet" :=
  ⟨by decide, by decide,
    (c1_first_match_in_order.2 evalStub searchStub ⟨0, someDate⟩ "hi bob, bye" ⟨none⟩ initState
      (by decide) (by decide)).1⟩

/-- C2: when no registered predicate holds on the preprocessed message,
`process` returns exactly the fallback handler's no-match response and
leaves the store unchanged (persisting it unchanged); and `process` is a
total function: every input yields a response. -/
theorem c2_no_match_fallback :
    (∀ (ev sf : String → Except String String) (clock : Clock) (msg : String)
        (ctx : Ctx) (st : AgentState),
        is_greeting (preprocessDefault msg) = false →
        is_help (preprocessDefault msg) = false →
        is_farewell (preprocessDefault msg) = false →
        is_echo (preprocessDefault msg) = false →
        is_calc (preprocessDefault msg) = false →
        is_age (preprocessDefault msg) = false →
        is_leap (preprocessDefault msg) = false →
        is_reminder (preprocessDefault msg) = false →
        is_note (preprocessDefault msg) = false →
        is_task (preprocessDefault msg) = false →
        is_search (preprocessDefault msg) = false →
        process defaultPres [] (defaultRules ev sf) clock msg ctx st
          = (fallback_handler (preprocessDefault msg) ctx, ⟨st.memory, some st.memory⟩))
    ∧ (∀ (ev sf : String → Except String String) (clock : Clock) (msg : String)
        (ctx : Ctx) (st : AgentState),
        ∃ out, process defaultPres [] (defaultRules ev sf) clock msg ctx st = out) := by
  constructor
  · intro ev sf clock msg ctx st h1 h2 h3 h4 h5 h6 h7 h8 h9 h10 h11
    have hfind : (defaultRules ev sf).find? (fun r => r.pred (preprocessDefault msg) ctx)
        = none := by
      simp [defaultRules, List.find?, h1, h2, h3, h4, h5, h6, h7, h8, h9, h10, h11]
    rw [process_default_nil, dispatchDefault_eq, hfind]
  · intro ev sf clock msg ctx st
    exact ⟨_, rfl⟩

/-- C2 witness: no predicate matches `qqq`, so the dispatcher answers with
the fallback response and saves the unchanged store. -/
theorem c2_no_match_fallback_witness :
    is_task (preprocessDefault "qqq") = false
    ∧ is_search (preprocessDefault "qqq") = false
    ∧ process defaultPres [] (defaultRules evalStub searchStub) ⟨0, someDate⟩ "qqq" ⟨none⟩ initState
        = (fallback_handler "qqq" ⟨none⟩, ⟨emptyMemory, some emptyMemory⟩) :=
  ⟨by decide, by decide,
    c2_no_match_fallback.1 evalStub searchStub ⟨0, someDate⟩ "qqq" ⟨none⟩ initState
      (by decide) (by decide) (by decide) (by decide) (by decide) (by decide) (by decide)
      (by decide) (by decide) (by decide) (by decide)⟩

/-- A default-configuration `process` call with arbitrary postprocessors:
the dispatch result is fed through the postprocessor chain, and the memory
is persisted exactly when the whole chain succeeds. -/
theorem process_default_eq (posts : List (AgentResponse → Except String AgentResponse))
    (ev sf : String → Except String String) (clock : Clock) (msg : String) (ctx : Ctx)
    (st : AgentState) :
    process defaultPres posts (defaultRules ev sf) clock msg ctx st
      = (match runPosts posts (dispatchDefault ev sf clock msg ctx st.memory).1 with
         | .error e =>
           ({ text := "Postprocessor error: " ++ e, intent := "error",
              confidence := conf 100, metadata := [("stage", "postprocessor")] },
            { st with memory := (dispatchDefault ev sf clock msg ctx st.memory).2 })
         | .ok resp =>
           (resp, ⟨(dispatchDefault ev sf clock msg ctx st.memory).2,
                   some (dispatchDefault ev sf clock msg ctx st.memory).2⟩)) := rfl

/-- C3 counterexample: with a failing postprocessor registered, processing
`note groceries` mutates the in-process store (the note is added) and
returns the `stage=postprocessor` error response, yet the persisted copy
still holds the empty store — the memory changes made by the handler were
not saved before the postprocessors ran. -/
theorem c3_save_counterexample :
    postFailRun.1.intent = "error"
    ∧ postFailRun.1.metadata = [("stage", "postprocessor")]
    ∧ postFailRun.2.memory.notes = some [⟨"groceries", isoformat 7⟩]
    ∧ postFailRun.2.file = some emptyMemory
    ∧ postFailRun.2.file ≠ some postFailRun.2.memory := by decide

/-- C3 amended: the store is persisted (full overwrite) after the
postprocessors succeed, not before they run: when every postprocessor
succeeds the dispatched memory is saved, and when one fails the
`stage=postprocessor` error response is returned with the persisted copy
untouched (the handler's memory changes are not saved). -/
theorem c3_persist_after_postprocessors :
    ∀ (posts : List (AgentResponse → Except String AgentResponse))
      (ev sf : String → Except String String) (clock : Clock) (msg : String)
      (ctx : Ctx) (st : AgentState),
      (∀ r', runPosts posts (dispatchDefault ev sf clock msg ctx st.memory).1 = .ok r' →
        process defaultPres posts (defaultRules ev sf) clock msg ctx st
          = (r', ⟨(dispatchDefault ev sf clock msg ctx st.memory).2,
                  some (dispatchDefault ev sf clock msg ctx st.memory).2⟩))
      ∧ (∀ e, runPosts posts (dispatchDefault ev sf clock msg ctx st.memory).1 = .error e →
        process defaultPres posts (defaultRules ev sf) clock msg ctx st
          = ({ text := "Postprocessor error: " ++ e, intent := "error",
               confidence := conf 100, metadata := [("stage", "postprocessor")] },
             ⟨(dispatchDefault ev sf clock msg ctx st.memory).2, st.file⟩)) := by
  intro posts ev sf clock msg ctx st
  constructor
  · intro r' h
    rw [process_default_eq, h]
  · intro e h
    rw [process_default_eq, h]

/-- C3 amended witness: with no postprocessors the chain trivially
succeeds and the dispatched memory is persisted. -/
theorem c3_persist_after_postprocessors_witness :
    process defaultPres [] (defaultRules evalStub searchStub) ⟨0, someDate⟩ "hi" ⟨none⟩ initState
      = ((dispatchDefault evalStub searchStub ⟨0, someDate⟩ "hi" ⟨none⟩ emptyMemory).1,
         ⟨(dispatchDefault evalStub searchStub ⟨0, someDate⟩ "hi" ⟨none⟩ emptyMemory).2,
          some (dispatchDefault evalStub searchStub ⟨0, someDate⟩ "hi" ⟨none⟩ emptyMemory).2⟩) :=
  (c3_persist_after_postprocessors [] evalStub searchStub ⟨0, someDate⟩ "hi" ⟨none⟩ initState).1 _ rfl

/-- Association-list lookup distributes over append. -/
theorem lookup_append (k : String) :
    ∀ l1 l2 : List (String × String), (l1 ++ l2).lookup k = (l1.lookup k).or (l2.lookup k)
  | [], l2 => rfl
  | (a, b) :: t, l2 => by
    cases h : k == a <;> simp [List.lookup, h, lookup_append k t l2]

/-- After `setdefault m k v` the key `k` is present. -/
theorem lookup_setdefault_self (m : List (String × String)) (k v : String) :
    ((setdefault m k v).lookup k).isSome = true := by
  unfold setdefault
  rcases h : m.lookup k with _ | w
  · simp [h, lookup_append, List.lookup]
  · simp [h]

/-- `setdefault` never removes a present key. -/
theorem lookup_setdefault_mono (m : List (String × String)) (k k' v : String)
    (h : (m.lookup k).isSome = true) : ((setdefault m k' v).lookup k).isSome = true := by
  unfold setdefault
  rcases hm : m.lookup k with _ | w
  · rw [hm] at h
    exact absurd h (by decide)
  · rcases h' : m.lookup k' with _ | w'
    · simp [h', lookup_append, hm]
    · simp [h', hm]

/-- C4 counterexample: `age nope` makes the age handler return a usage
response with intent `error`, and the dispatcher still adds both
`metadata.received_at` and `metadata.original_message` to it, contradicting
the claim that error responses never receive these keys. -/
theorem c4_metadata_counterexample :
    ageErrRun.1.intent = "error"
    ∧ (ageErrRun.1.metadata.lookup "received_at").isSome = true
    ∧ ageErrRun.1.metadata.lookup "original_message" = some "age nope" := by decide

/-- C4 amended: the dispatcher adds `metadata.received_at` and
`metadata.original_message` (when not already set) exactly to responses a
matched handler returns without raising — whatever their intent, `error`
included; the fallback response is returned as-is without them, and the
error responses of the handler, postprocessor and preprocessor failure
paths carry only their `stage` tag, never these keys. -/
theorem c4_metadata_on_handler_success :
    (∀ (ev sf : String → Except String String) (clock : Clock) (msg : String)
        (ctx : Ctx) (st : AgentState) (r : Rule) (resp : AgentResponse) (mem2 : Memory),
        (defaultRules ev sf).find? (fun x => x.pred (preprocessDefault msg) ctx) = some r →
        r.handle clock (preprocessDefault msg) ctx st.memory = .ok (resp, mem2) →
        ((process defaultPres [] (defaultRules ev sf) clock msg ctx st).1.metadata.lookup
            "received_at").isSome = true
        ∧ ((process defaultPres [] (defaultRules ev sf) clock msg ctx st).1.metadata.lookup
            "original_message").isSome = true)
    ∧ (∀ (ev sf : String → Except String String) (clock : Clock) (msg : String)
        (ctx : Ctx) (st : AgentState),
        (defaultRules ev sf).find? (fun x => x.pred (preprocessDefault msg) ctx) = none →
        (process defaultPres [] (defaultRules ev sf) clock msg ctx st).1
            = fallback_handler (preprocessDefault msg) ctx
        ∧ (process defaultPres [] (defaultRules ev sf) clock msg ctx st).1.metadata = [])
    ∧ (∀ (ev sf : String → Except String String) (clock : Clock) (msg : String)
        (ctx : Ctx) (st : AgentState) (r : Rule) (e : String),
        (defaultRules ev sf).find? (fun x => x.pred (preprocessDefault msg) ctx) = some r →
        r.handle clock (preprocessDefault msg) ctx st.memory = .error e →
        (process defaultPres [] (defaultRules ev sf) clock msg ctx st).1
            = { text := "Handler error: " ++ e, intent := "error", confidence := conf 100,
                metadata := [("stage", "handler")] }
        ∧ (process defaultPres [] (defaultRules ev sf) clock msg ctx st).1.metadata.lookup
            "received_at" = none
        ∧ (process defaultPres [] (defaultRules ev sf) clock msg ctx st).1.metadata.lookup
            "original_message" = none)
    ∧ (∀ (posts : List (AgentResponse → Except String AgentResponse))
        (ev sf : String → Except String String) (clock : Clock) (msg : String)
        (ctx : Ctx) (st : AgentState) (e : String),
        runPosts posts (dispatchDefault ev sf clock msg ctx st.memory).1 = .error e →
        (process defaultPres posts (defaultRules ev sf) clock msg ctx st).1
            = { text := "Postprocessor error: " ++ e, intent := "error", confidence := conf 100,
                metadata := [("stage", "postprocessor")] }
        ∧ (process defaultPres posts (defaultRules ev sf) clock msg ctx st).1.metadata.lookup
            "received_at" = none
        ∧ (process defaultPres posts (defaultRules ev sf) clock msg ctx st).1.metadata.lookup
            "original_message" = none)
    ∧ (∀ (pres : List (String → Except String String))
        (posts : List (AgentResponse → Except String AgentResponse))
        (rules : List Rule) (clock : Clock) (msg : String) (ctx : Ctx) (st : AgentState)
        (e : String),
        runPres pres msg = .error e →
        process pres posts rules clock msg ctx st
            = ({ text := "Preprocessor error: " ++ e, intent := "error",
                 confidence := conf 100, metadata := [("stage", "preprocessor")] }, st)
        ∧ (process pres posts rules clock msg ctx st).1.metadata.lookup
            "received_at" = none
        ∧ (process pres posts rules clock msg ctx st).1.metadata.lookup
            "original_message" = none) := by
  refine ⟨?_, ?_, ?_, ?_, ?_⟩
  · intro ev sf clock msg ctx st r resp mem2 hfind hhandle
    rw [process_default_nil, dispatchDefault_eq, hfind]
    simp only [applyRule, hhandle]
    constructor
    · exact lookup_setdefault_mono _ _ _ _
        (lookup_setdefault_self resp.metadata "received_at" _)
    · exact lookup_setdefault_self _ "original_message" _
  · intro ev sf clock msg ctx st hfind
    rw [process_default_nil, dispatchDefault_eq, hfind]
    exact ⟨rfl, rfl⟩
  · intro ev sf clock msg ctx st r e hfind hhandle
    rw [process_default_nil, dispatchDefault_eq, hfind]
    simp only [applyRule, hhandle]
    exact ⟨trivial, rfl, rfl⟩
  · intro posts ev sf clock msg ctx st e h
    rw [process_default_eq, h]
    exact ⟨rfl, rfl, rfl⟩
  · intro pres posts rules clock msg ctx st e h
    simp only [process, h]
    exact ⟨trivial, rfl, rfl⟩

/-- C4 amended witness: the error-intent age response gets the metadata
keys; the fallback response on `qqq`, the handler-error response on a
malformed stored reminder, the postprocessor-error response and the
preprocessor-error response all get none. -/
theorem c4_metadata_on_handler_success_witness :
    ((process defaultPres [] (defaultRules evalStub searchStub) ⟨0, someDate⟩ "age nope" ⟨none⟩
        initState).1.metadata.lookup "received_at").isSome = true
    ∧ (process defaultPres [] (defaultRules evalStub searchStub) ⟨0, someDate⟩ "qqq" ⟨none⟩
        initState).1.metadata = []
    ∧ (process defaultPres [] (defaultRules evalStub searchStub) ⟨0, someDate⟩ "reminders" ⟨none⟩
        ⟨badReminderMem, some badReminderMem⟩).1.metadata.lookup "received_at" = none
    ∧ (process defaultPres [failingPost] (defaultRules evalStub searchStub) ⟨0, someDate⟩ "hi"
        ⟨none⟩ initState).1.metadata.lookup "received_at" = none
    ∧ (process [failingPre] [] (defaultRules evalStub searchStub) ⟨0, someDate⟩ "hi" ⟨none⟩
        initState).1.metadata.lookup "received_at" = none :=
  ⟨(c4_metadata_on_handler_success.1 evalStub searchStub ⟨0, someDate⟩ "age nope" ⟨none⟩ initState
      ⟨fun m _ => is_age m, fun ck m _ mem => .ok (handle_age ck m, mem)⟩
      ageUsage emptyMemory rfl rfl).1,
   (c4_metadata_on_handler_success.2.1 evalStub searchStub ⟨0, someDate⟩ "qqq" ⟨none⟩ initState
      rfl).2,
   (c4_metadata_on_handler_success.2.2.1 evalStub searchStub ⟨0, someDate⟩ "reminders" ⟨none⟩
      ⟨badReminderMem, some badReminderMem⟩
      ⟨fun m _ => is_reminder m, fun ck m _ mem => handle_reminder ck m mem⟩
      "Invalid isoformat string: 'zzz'" rfl rfl).2.1,
   (c4_metadata_on_handler_success.2.2.2.1 [failingPost] evalStub searchStub ⟨0, someDate⟩ "hi"
      ⟨none⟩ initState "boom" rfl).2.1,
   (c4_metadata_on_handler_success.2.2.2.2 [failingPre] [] (defaultRules evalStub searchStub)
      ⟨0, someDate⟩ "hi" ⟨none⟩ initState "boom" rfl).2.1⟩

/-- C5: processing `remind me to call mom in 2 hours` on a fixed clock `T`
appends exactly one reminder with `due_time = T + 2` hours and intent
`reminder_set` at confidence `0.95` — but the stored text is
`me to call mom s`, not `call mom`: the lead-in regex `remind(me)?\s+...`
only matches `me` glued to `remind`, and the unit alternation
`minute|minutes|hour|hours|...` matches `hour` inside `hours`, leaving a
stray `s`. -/
theorem c5_reminder_scenario :
    ∀ (ev sf : String → Except String String) (T : Nat) (d : Date),
      (process defaultPres [] (defaultRules ev sf) ⟨T, d⟩ "remind me to call mom in 2 hours"
          ⟨none⟩ initState).2.memory.reminders
        = some [⟨"me to call mom s", isoformat (T + 120), isoformat T⟩]
      ∧ (process defaultPres [] (defaultRules ev sf) ⟨T, d⟩ "remind me to call mom in 2 hours"
          ⟨none⟩ initState).1.intent = "reminder_set"
      ∧ (process defaultPres [] (defaultRules ev sf) ⟨T, d⟩ "remind me to call mom in 2 hours"
          ⟨none⟩ initState).1.confidence = conf 95
      ∧ ("me to call mom s" : String) ≠ "call mom" := by
  intro ev sf T d
  exact ⟨rfl, rfl, rfl, by decide⟩

/-- C6: on a `done <n>` message, the task handler completes task `n` and
stamps its completion time when `1 ≤ n ≤ count`, answers a not-found error
without mutating the store when `n` is out of range, and answers the usage
error when the argument is not an integer or missing. -/
theorem c6_done_branch :
    ∀ (clock : Clock) (m : String) (mem : Memory),
      startsL "done ".data (pyLower m).data = true →
      ((∀ n : Int, ((pySplit m).get? 1).bind pyIntParse = some n →
          ((1 ≤ n ∧ n ≤ ((mem.tasks.getD []).length : Int)) →
            handle_task clock m mem
              = .ok ({ text := "‚úì Task " ++ toString n ++ " marked as done!",
                       intent := "task_complete", confidence := conf 95 },
                     { mem with
                       tasks := some (completeAt clock.now (mem.tasks.getD []) (n - 1).toNat) }))
          ∧ (¬(1 ≤ n ∧ n ≤ ((mem.tasks.getD []).length : Int)) →
            handle_task clock m mem
              = .ok ({ text := "Task " ++ toString n ++ " not found.",
                       intent := "error", confidence := conf 100 }, mem)))
       ∧ (((pySplit m).get? 1).bind pyIntParse = none →
          handle_task clock m mem = .ok (doneUsage, mem))) := by
  intro clock m mem hstart
  have hne : ¬(pyLower m = "tasks") := by
    intro h
    rw [h] at hstart
    exact absurd hstart (by decide)
  constructor
  · intro n hn
    constructor
    · intro hin
      simp only [handle_task]
      rw [if_neg hne, if_pos hstart, hn]
      exact if_pos hin
    · intro hout
      simp only [handle_task]
      rw [if_neg hne, if_pos hstart, hn]
      exact if_neg hout
  · intro hnone
    simp only [handle_task]
    rw [if_neg hne, if_pos hstart, hnone]

/-- C6 witness: with one stored task, `done 1` completes it, `done 99`
answers not-found without mutation, `done x` answers the usage error. -/
theorem c6_done_branch_witness :
    handle_task ⟨3, someDate⟩ "done 1" oneTaskMem
      = .ok ({ text := "‚úì Task 1 marked as done!", intent := "task_complete",
               confidence := conf 95 },
             { oneTaskMem with tasks := some [⟨"buy milk", true, some (isoformat 3)⟩] })
    ∧ handle_task ⟨3, someDate⟩ "done 99" oneTaskMem
      = .ok ({ text := "Task 99 not found.", intent := "error", confidence := conf 100 },
             oneTaskMem)
    ∧ handle_task ⟨3, someDate⟩ "done x" oneTaskMem = .ok (doneUsage, oneTaskMem) := by
  refine ⟨?_, ?_, ?_⟩
  · exact ((c6_done_branch ⟨3, someDate⟩ "done 1" oneTaskMem (by decide)).1 1
      (by decide)).1 (by decide)
  · exact ((c6_done_branch ⟨3, someDate⟩ "done 99" oneTaskMem (by decide)).1 99
      (by decide)).2 (by decide)
  · exact (c6_done_branch ⟨3, someDate⟩ "done x" oneTaskMem (by decide)).2 (by decide)

/-- C7 counterexample: the spec's own round-trip input `note hello world`
contains the word-bounded `hello`, so the greeting rule (registered first)
answers it, no note is stored, and the subsequent `notes` listing is
empty — it contains no entry with `hello world`. -/
theorem c7_roundtrip_counterexample :
    noteHelloRun.1.intent = "greet"
    ∧ noteHelloRun.2.memory = emptyMemory
    ∧ noteHelloListRun.1.text = "No notes saved."
    ∧ containsStr noteHelloListRun.1.text "hello world" = false := by decide

/-- C7 amended: the round-trips hold for texts that do not trigger an
earlier rule: `note grocery list` then `notes` yields a listing with
exactly one entry whose text contains `grocery list`, and `task buy milk`
then `done 1` then `tasks` shows that task under the Completed section. -/
theorem c7_roundtrip_amended :
    noteRun1.2.memory.notes = some [⟨"grocery list", isoformat 0⟩]
    ∧ noteRun2.1.intent = "note_list"
    ∧ noteRun2.1.text = "Your notes:\n1. grocery list (0)"
    ∧ containsStr noteRun2.1.text "grocery list" = true
    ∧ taskRun1.2.memory.tasks = some [⟨"buy milk", false, none⟩]
    ∧ taskRun2.2.memory.tasks = some [⟨"buy milk", true, some (isoformat 1)⟩]
    ∧ taskRun3.1.intent = "task_list"
    ∧ taskRun3.1.text = "Completed:\n1. ‚úì buy milk" := by decide

/-- C8: a reminder message other than the exact listing command in which
neither the relative time pattern nor a day-anchor word occurs makes the
reminder handler answer the usage error, leaving the store untouched. -/
theorem c8_reminder_usage_error :
    ∀ (clock : Clock) (m : String) (mem : Memory),
      startsL "remind".data (pyLower m).data = true →
      pyLower m ≠ "reminders" →
      findTimeMatchL (pyLower m).data = none →
      findWhenL (pyLower m).data = none →
      handle_reminder clock m mem = .ok (reminderUsage, mem) := by
  intro clock m mem _hstart hne htime hwhen
  simp only [handle_reminder]
  rw [if_neg hne, htime, hwhen]

/-- C8 witness: `remind me about stuff` holds no time expression and gets
the usage error with the store unchanged. -/
theorem c8_reminder_usage_error_witness :
    startsL "remind".data (pyLower "remind me about stuff").data = true
    ∧ handle_reminder ⟨0, someDate⟩ "remind me about stuff" emptyMemory
        = .ok (reminderUsage, emptyMemory) :=
  ⟨by decide, c8_reminder_usage_error ⟨0, someDate⟩ "remind me about stuff" emptyMemory
      (by decide) (by decide) (by decide) (by decide)⟩

/-- The note rule leaves the memory untouched on the exact listing
command, whether the listing succeeds or raises. -/
theorem applyRule_notes_mem (ck : Clock) (orig : String) (ctx : Ctx) (mem : Memory) :
    (applyRule ck orig "notes" ctx mem
      ⟨fun m _ => is_note m, fun c m _ mm => handle_note c m mm⟩).2 = mem := by
  have hlow : pyLower "notes" = "notes" := rfl
  rcases hn : mem.notes.getD [] with _ | ⟨n0, ns⟩
  · simp [applyRule, handle_note, hlow, hn]
  · rcases hl : noteLines 1 (n0 :: ns) with e | ls <;>
      simp [applyRule, handle_note, hlow, hn, hl]

/-- The task rule leaves the memory untouched on the exact listing
command. -/
theorem applyRule_tasks_mem (ck : Clock) (orig : String) (ctx : Ctx) (mem : Memory) :
    (applyRule ck orig "tasks" ctx mem
      ⟨fun m _ => is_task m, fun c m _ mm => handle_task c m mm⟩).2 = mem := by
  have hlow : pyLower "tasks" = "tasks" := rfl
  rcases hn : mem.tasks.getD [] with _ | ⟨t0, ts⟩
  · simp [applyRule, handle_task, hlow, hn]
  · rcases hpc : taskLines 1 (t0 :: ts) with ⟨p, c⟩
    simp [applyRule, handle_task, hlow, hn, hpc]

/-- The reminder rule leaves the memory untouched on the exact listing
command, whether the listing succeeds or raises. -/
theorem applyRule_reminders_mem (ck : Clock) (orig : String) (ctx : Ctx) (mem : Memory) :
    (applyRule ck orig "reminders" ctx mem
      ⟨fun m _ => is_reminder m, fun c m _ mm => handle_reminder c m mm⟩).2 = mem := by
  have hlow : pyLower "reminders" = "reminders" := rfl
  rcases hn : mem.reminders.getD [] with _ | ⟨r0, rs⟩
  · simp [applyRule, handle_reminder, hlow, hn]
  · rcases hl : reminderLines ck.now 1 (r0 :: rs) with e | ls <;>
      simp [applyRule, handle_reminder, hlow, hn, hl]

/-- C9: for every contents of the store, processing the exact listing
commands `notes`, `tasks` and `reminders` leaves the Memory Store
unchanged. -/
theorem c9_listing_never_mutates :
    ∀ (ev sf : String → Except String String) (clock : Clock) (ctx : Ctx) (st : AgentState),
      (process defaultPres [] (defaultRules ev sf) clock "notes" ctx st).2.memory = st.memory
      ∧ (process defaultPres [] (defaultRules ev sf) clock "tasks" ctx st).2.memory = st.memory
      ∧ (process defaultPres [] (defaultRules ev sf) clock "reminders" ctx st).2.memory
          = st.memory := by
  intro ev sf clock ctx st
  refine ⟨?_, ?_, ?_⟩
  · rw [process_default_nil]
    show (dispatchDefault ev sf clock "notes" ctx st.memory).2 = st.memory
    rw [dispatchDefault_eq]
    rw [show (defaultRules ev sf).find? (fun r => r.pred (preprocessDefault "notes") ctx)
        = some ⟨fun m _ => is_note m, fun c m _ mm => handle_note c m mm⟩ from rfl]
    exact applyRule_notes_mem clock "notes" ctx st.memory
  · rw [process_default_nil]
    show (dispatchDefault ev sf clock "tasks" ctx st.memory).2 = st.memory
    rw [dispatchDefault_eq]
    rw [show (defaultRules ev sf).find? (fun r => r.pred (preprocessDefault "tasks") ctx)
        = some ⟨fun m _ => is_task m, fun c m _ mm => handle_task c m mm⟩ from rfl]
    exact applyRule_tasks_mem clock "tasks" ctx st.memory
  · rw [process_default_nil]
    show (dispatchDefault ev sf clock "reminders" ctx st.memory).2 = st.memory
    rw [dispatchDefault_eq]
    rw [show (defaultRules ev sf).find? (fun r => r.pred (preprocessDefault "reminders") ctx)
        = some ⟨fun m _ => is_reminder m, fun c m _ mm => handle_reminder c m mm⟩ from rfl]
    exact applyRule_reminders_mem clock "reminders" ctx st.memory

/-- The greedy name tail takes at most `k` characters. -/
theorem nameTail_length : ∀ (k : Nat) (l : List Char), (nameTail k l).length ≤ k
  | _, [] => by simp [nameTail]
  | 0, _ :: _ => by simp [nameTail]
  | k + 1, c :: rest => by
    simp only [nameTail]
    split
    · simpa using Nat.succ_le_succ (nameTail_length k rest)
    · simp

/-- A name captured by the name group has between 2 and 30 characters,
as the source pattern `[A-Za-z][A-Za-z\-']{1,29}` requires. -/
theorem nameFrom_length : ∀ (l : List Char) (n : String),
    nameFrom l = some n → 2 ≤ n.data.length ∧ n.data.length ≤ 30 := by
  intro l n h
  cases l with
  | nil => simp [nameFrom] at h
  | cons a r =>
    cases htl : nameTail 29 r with
    | nil =>
      rw [nameFrom, htl] at h
      split at h
      · exact absurd h (by simp)
      · exact absurd h (by simp)
    | cons b tl' =>
      have hlen : (b :: tl').length ≤ 29 := htl ▸ nameTail_length 29 r
      rw [nameFrom, htl] at h
      split at h
      · have q : String.mk (a :: b :: tl') = n := Option.some.inj h
        subst q
        constructor
        · show 2 ≤ (a :: b :: tl').length
          simp
        · show (a :: b :: tl').length ≤ 30
          have h29 : tl'.length + 1 ≤ 29 := by simpa using hlen
          simp only [List.length_cons]
          omega
      · exact absurd h (by simp)

/-- The anchored greeting-name match only captures names of 2 to 30
characters. -/
theorem nameMatchAt_length : ∀ (l : List Char) (n : String),
    nameMatchAt l = some n → 2 ≤ n.data.length ∧ n.data.length ≤ 30 := by
  intro l n h
  cases l with
  | nil => simp [nameMatchAt] at h
  | cons c rest =>
    simp only [nameMatchAt] at h
    split at h
    · split at h
      · exact absurd h (by simp)
      · split at h
        · split at h
          · exact absurd h (by simp)
          · split at h
            · exact nameFrom_length _ _ h
            · exact absurd h (by simp)
        · exact absurd h (by simp)
    · exact absurd h (by simp)

/-- Every name the greeting extraction returns has 2 to 30 characters. -/
theorem extractNameL_length : ∀ (l : List Char) (n : String),
    extractNameL l = some n → 2 ≤ n.data.length ∧ n.data.length ≤ 30
  | [], n => by
    intro h
    simp [extractNameL] at h
  | c :: rest, n => by
    intro h
    simp only [extractNameL] at h
    cases hm : nameMatchAt (c :: rest) with
    | some n' =>
      rw [hm] at h
      have hn : n' = n := by simpa using h
      exact hn ▸ nameMatchAt_length _ _ hm
    | none =>
      rw [hm] at h
      exact extractNameL_length rest n (by simpa using h)

/-- C10: the greeting handler never overwrites an existing (truthy) user
name — if the store holds one or the context supplies one the store is
unchanged; it writes `user_name` exactly when both are absent and the
`I'm <Name>` pattern matches; the reply prefers the context-supplied
name over the stored one; and every extracted name obeys the pattern's
2-to-30-character bound. -/
theorem c10_greeting_name_preservation :
    (∀ (msg : String) (ctx : Ctx) (mem : Memory),
        isTruthy ctx.user_name = true ∨ isTruthy mem.user_name = true →
        (handle_greeting msg ctx mem).2 = mem)
    ∧ (∀ (msg : String) (ctx : Ctx) (mem : Memory),
        isTruthy ctx.user_name = false → isTruthy mem.user_name = false →
        (handle_greeting msg ctx mem).2
          = (match extractName msg with
             | some n => { mem with user_name := some n }
             | none => mem))
    ∧ (∀ (msg : String) (ctx : Ctx) (mem : Memory) (n : String),
        ctx.user_name = some n → n ≠ "" →
        (handle_greeting msg ctx mem).1 = greetResp n)
    ∧ (∀ (msg : String) (n : String),
        extractName msg = some n → 2 ≤ n.data.length ∧ n.data.length ≤ 30) := by
  refine ⟨?_, ?_, ?_, ?_⟩
  · intro msg ctx mem h
    cases hct : isTruthy ctx.user_name
    · rcases hm : mem.user_name with _ | s
      · rcases h with h | h
        · rw [hct] at h
          exact absurd h (by decide)
        · rw [hm] at h
          exact absurd h (by decide)
      · rcases h with h | h
        · rw [hct] at h
          exact absurd h (by decide)
        · have hs : ¬(s = "") := by
            rw [hm] at h
            simpa [isTruthy] using h
          simp [handle_greeting, hct, hm, hs]
    · rcases hc : ctx.user_name with _ | s
      · rw [hc] at hct
        exact absurd hct (by decide)
      · have hs : ¬(s = "") := by
          rw [hc] at hct
          simpa [isTruthy] using hct
        simp [handle_greeting, hct, hc, hs, isTruthy]
  · intro msg ctx mem hct hmt
    rcases hm : mem.user_name with _ | s
    · rcases he : extractName msg with _ | n <;>
        simp [handle_greeting, hct, hm, greetExtract, he]
    · have hs : s = "" := by
        rw [hm] at hmt
        simpa [isTruthy] using hmt
      rcases he : extractName msg with _ | n <;>
        simp [handle_greeting, hct, hm, hs, greetExtract, he]
  · intro msg ctx mem n hc hn
    simp [handle_greeting, hc, isTruthy, hn]
  · intro msg n h
    exact extractNameL_length msg.data n h

/-- C10 witness: a context-supplied name keeps the store unchanged and is
preferred in the reply; with no name anywhere, `hi i'm Bob` stores `Bob`,
whose length lies in the pattern's 2-to-30 bound. -/
theorem c10_greeting_name_preservation_witness :
    (handle_greeting "hi" ⟨some "Ada"⟩ emptyMemory).2 = emptyMemory
    ∧ (handle_greeting "hi" ⟨some "Ada"⟩ emptyMemory).1 = greetResp "Ada"
    ∧ (handle_greeting "hi i'm Bob" ⟨none⟩ emptyMemory).2
        = { emptyMemory with user_name := some "Bob" }
    ∧ (2 ≤ ("Bob" : String).data.length ∧ ("Bob" : String).data.length ≤ 30) :=
  ⟨c10_greeting_name_preservation.1 "hi" ⟨some "Ada"⟩ emptyMemory (Or.inl (by decide)),
   c10_greeting_name_preservation.2.2.1 "hi" ⟨some "Ada"⟩ emptyMemory "Ada" rfl (by decide),
   (c10_greeting_name_preservation.2.1 "hi i'm Bob" ⟨none⟩ emptyMemory
      (by decide) (by decide)).trans (by decide),
   c10_greeting_name_preservation.2.2.2 "hi i'm Bob" "Bob" (by decide)⟩

end MessageAgent
